import Mathlib

/-!
Formal model of the Synthesizer component of the Synth repository
(src/mysynth/src/Components/Synthesizer.jsx), together with theorems about
its key handling, octave handling, recording session and MP3 conversion.

Modelling conventions: JavaScript numbers used as integers are modelled as
Int or Nat; the JavaScript Set held in the activeNotes ref is modelled as a
list in insertion order (Set.add appends a fresh element, Set.delete removes
it); the pitch template string produced by getNoteWithOctave (a note name
followed by the octave number) is modelled by the pair of its two
components, which determines the string injectively since no note name
contains a digit or a sign.
-/

/-- Note-name symbols returned by getNoteFromKeyCode. The constructor Cs
models the source string for C sharp, and so on for the other sharps. -/
inductive NoteSymbol
  | C | Cs | D | Ds | E | F | Fs | G | Gs | A | As | B
deriving DecidableEq

/-- A fully qualified pitch: the model of the template string produced by
getNoteWithOctave, represented by its note-symbol and octave components. -/
structure Pitch where
  note : NoteSymbol
  octave : Int
deriving DecidableEq

/-- Commands the handlers send to the Tone.js synth (the Voice
collaborator of the spec): triggerAttack and triggerRelease. -/
inductive Effect
  | attack (p : Pitch)
  | release (p : Pitch)
deriving DecidableEq

/-- The state read and written by the key, octave and button handlers:
the octave field of the settings state, whether synth.current is non-null,
and the activeNotes ref. The remaining settings fields (oscillator,
envelope and filter parameters) are forwarded to the Voice collaborator
and never read or written by the handlers modelled here, so they are
omitted from the state. -/
structure SynthState where
  octave : Int
  synthReady : Bool
  activeNotes : List NoteSymbol
deriving DecidableEq

/-- Model of getNoteFromKeyCode: the fixed switch from a key code to a
note symbol; unmapped codes return none. -/
def getNoteFromKeyCode (keyCode : Int) : Option NoteSymbol :=
  if keyCode = 65 then some .C
  else if keyCode = 83 then some .D
  else if keyCode = 68 then some .E
  else if keyCode = 70 then some .F
  else if keyCode = 71 then some .G
  else if keyCode = 72 then some .A
  else if keyCode = 74 then some .B
  else if keyCode = 75 then some .Cs
  else if keyCode = 76 then some .Ds
  else if keyCode = 186 then some .Fs
  else if keyCode = 222 then some .Gs
  else none

/-- The key codes handled by the switch in getNoteFromKeyCode, in source
order. -/
def mappedKeyCodes : List Int := [65, 83, 68, 70, 71, 72, 74, 75, 76, 186, 222]

/-- The code-to-note pairs of the switch in getNoteFromKeyCode, in source
order. -/
def keyNotePairs : List (Int × NoteSymbol) :=
  [(65, .C), (83, .D), (68, .E), (70, .F), (71, .G), (72, .A), (74, .B),
   (75, .Cs), (76, .Ds), (186, .Fs), (222, .Gs)]

/-- Model of getNoteWithOctave: combines a note symbol with the current
octave from settings. The source renders the pair as a template string;
that rendering is injective, so the pair represents it faithfully. -/
def getNoteWithOctave (note : NoteSymbol) (octave : Int) : Pitch :=
  ⟨note, octave⟩

/-- Model of handleKeyDown: resolve the key code; when the note is mapped,
synth.current is non-null and the note is not already in activeNotes, add
it and trigger an attack at the current octave; otherwise do nothing. -/
def handleKeyDown (s : SynthState) (keyCode : Int) : SynthState × List Effect :=
  match getNoteFromKeyCode keyCode with
  | none => (s, [])
  | some note =>
    if s.synthReady ∧ note ∉ s.activeNotes then
      ({ s with activeNotes := s.activeNotes ++ [note] },
       [Effect.attack (getNoteWithOctave note s.octave)])
    else (s, [])

/-- Model of handleKeyUp: resolve the key code; when the note is mapped,
synth.current is non-null and the note is in activeNotes, remove it and
trigger a release at the current octave; otherwise do nothing. -/
def handleKeyUp (s : SynthState) (keyCode : Int) : SynthState × List Effect :=
  match getNoteFromKeyCode keyCode with
  | none => (s, [])
  | some note =>
    if s.synthReady ∧ note ∈ s.activeNotes then
      ({ s with activeNotes := s.activeNotes.erase note },
       [Effect.release (getNoteWithOctave note s.octave)])
    else (s, [])

/-- Model of handleOctaveChange: octave goes up by one when direction is
the string up, down by one otherwise; nothing else in the state changes. -/
def handleOctaveChange (s : SynthState) (direction : String) : SynthState :=
  { s with octave := if direction = "up" then s.octave + 1 else s.octave - 1 }

/-- Model of the onMouseDown handler of an on-screen key button: when
synth.current is non-null, trigger an attack at the current octave; the
activeNotes set is never consulted or changed. -/
def buttonMouseDown (s : SynthState) (note : NoteSymbol) : SynthState × List Effect :=
  if s.synthReady then (s, [Effect.attack (getNoteWithOctave note s.octave)]) else (s, [])

/-- Model of the onMouseUp handler of an on-screen key button. -/
def buttonMouseUp (s : SynthState) (note : NoteSymbol) : SynthState × List Effect :=
  if s.synthReady then (s, [Effect.release (getNoteWithOctave note s.octave)]) else (s, [])

/-- Model of the onTouchStart handler of an on-screen key button. -/
def buttonTouchStart (s : SynthState) (note : NoteSymbol) : SynthState × List Effect :=
  if s.synthReady then (s, [Effect.attack (getNoteWithOctave note s.octave)]) else (s, [])

/-- Model of the onTouchEnd handler of an on-screen key button. -/
def buttonTouchEnd (s : SynthState) (note : NoteSymbol) : SynthState × List Effect :=
  if s.synthReady then (s, [Effect.release (getNoteWithOctave note s.octave)]) else (s, [])

/-- Errors of the encoding pipeline, following the taxonomy of the spec:
decodeError for a malformed container header and formatError for an
unsupported channel count or bit depth. -/
inductive EncError
  | decodeError
  | formatError
deriving DecidableEq

/-- The fields lamejs WavHeader.readHeader recovers from a WAV container
header. -/
structure WavHeader where
  channels : Nat
  sampleRate : Nat
  bitsPerSample : Nat
  dataOffset : Nat
  dataLen : Nat
deriving DecidableEq

/-- Little-endian 16-bit read at a byte offset, 0 when out of range. -/
def readU16LE (buf : List Nat) (off : Nat) : Nat :=
  buf.getD off 0 + 256 * buf.getD (off + 1) 0

/-- Little-endian 32-bit read at a byte offset, 0 when out of range. -/
def readU32LE (buf : List Nat) (off : Nat) : Nat :=
  buf.getD off 0 + 256 * buf.getD (off + 1) 0 + 65536 * buf.getD (off + 2) 0
    + 16777216 * buf.getD (off + 3) 0

/-- Modelled from the spec: lamejs.WavHeader.readHeader is library code
that is not present under src/. Per the spec it parses the container
header of the raw buffer, recovering channel count, sample rate, bit
depth, the byte offset of the sample data and the declared data length,
and it fails with a DecodeError when the header is truncated, carries a
wrong format tag, or declares a data length exceeding the actual buffer
length. The canonical 44-byte RIFF/WAVE layout is used: RIFF tag at
offset 0, WAVE tag at offset 8, channel count at offset 22, sample rate
at offset 24, bits per sample at offset 34, declared data length at
offset 40, sample data from offset 44. -/
def readHeader (buf : List Nat) : Except EncError WavHeader :=
  if buf.length < 44 then .error .decodeError
  else if ¬(buf.take 4 = [82, 73, 70, 70] ∧ (buf.drop 8).take 4 = [87, 65, 86, 69]) then
    .error .decodeError
  else if buf.length < 44 + readU32LE buf 40 then .error .decodeError
  else .ok ⟨readU16LE buf 22, readU32LE buf 24, readU16LE buf 34, 44, readU32LE buf 40⟩

/-- Reinterpret two consecutive bytes as one little-endian signed 16-bit
sample, as the Int16Array view built in convertToMp3 does. -/
def toInt16 (lo hi : Nat) : Int :=
  let v := lo % 256 + 256 * (hi % 256)
  if v < 32768 then (v : Int) else (v : Int) - 65536

/-- Decode a byte list as little-endian signed 16-bit samples; a trailing
odd byte is not a sample. -/
def bytesToInt16 : List Nat → List Int
  | lo :: hi :: rest => toInt16 lo hi :: bytesToInt16 rest
  | _ => []

/-- Modelled from the spec: lamejs.Mp3Encoder is library code that is not
present under src/. The spec describes it as a stateful block encoder:
encodeBuffer consumes one chunk of samples and may return zero output
bytes while the internal lookahead fills, and flush drains the remaining
buffered state at end of stream. The model is parametric in the internal
state type, so theorems hold for every encoder with the stated
properties; the constructor arguments of the source call (1 channel, the
sample rate of the header, 128 kbps) select the encoder instance and do
not otherwise occur in the loop being modelled. -/
structure Mp3EncoderModel (α : Type) where
  init : α
  encodeBuffer : α → List Int → α × List Nat
  flush : α → List Nat

/-- One chunk per iteration of the block loop of convertToMp3: the
subarray call clamps at the end of the array, so iteration i yields the
next take of up to 1152 samples. The fuel argument (instantiated with the
list length, an upper bound on the iteration count since every step
consumes at least one element) makes the recursion structural. -/
def chunkSamplesGo : Nat → List Int → List (List Int)
  | _, [] => []
  | 0, _ => []
  | fuel + 1, l => l.take 1152 :: chunkSamplesGo fuel (l.drop 1152)

/-- The chunk sequence the block loop of convertToMp3 feeds to
encodeBuffer, in order. -/
def chunkSamples (l : List Int) : List (List Int) :=
  chunkSamplesGo l.length l

/-- Closed form of the chunk lengths the block loop produces on an input
of n samples: full 1152-sample blocks followed by one block of n mod 1152
samples when n is not a multiple of 1152. -/
def chunkLens (n : Nat) : List Nat :=
  List.replicate (n / 1152) 1152 ++ if n % 1152 = 0 then [] else [n % 1152]

/-- The block loop of convertToMp3: feed each chunk to encodeBuffer,
threading the encoder state, and append each non-empty output buffer. -/
def encodeLoop (enc : Mp3EncoderModel α) :
    List (List Int) → α → List (List Nat) → α × List (List Nat)
  | [], st, acc => (st, acc)
  | c :: rest, st, acc =>
    let r := enc.encodeBuffer st c
    encodeLoop enc rest r.1 (if r.2.length > 0 then acc ++ [r.2] else acc)

/-- The sample-level part of convertToMp3: run the block loop over the
chunked samples from the initial encoder state, then flush, appending the
flush output when it is non-empty. -/
def convertToMp3Core (enc : Mp3EncoderModel α) (samples : List Int) : List (List Nat) :=
  let r := encodeLoop enc (chunkSamples samples) enc.init []
  let fl := enc.flush r.1
  if fl.length > 0 then r.2 ++ [fl] else r.2

/-- Model of convertToMp3: read the WAV header, view the data bytes as
dataLen / 2 signed 16-bit samples starting at dataOffset, and encode
block by block, then flush. The source consults only the sampleRate,
dataOffset and dataLen fields of the header; channels and bitsPerSample
are never read, and no FormatError code path exists. -/
def convertToMp3 (enc : Mp3EncoderModel α) (wavBuffer : List Nat) :
    Except EncError (List (List Nat)) :=
  match readHeader wavBuffer with
  | .error e => .error e
  | .ok wav =>
    .ok (convertToMp3Core enc
      (bytesToInt16 ((wavBuffer.drop wav.dataOffset).take (2 * (wav.dataLen / 2)))))

/-- The recording-session state: whether audioContext.current exists,
which MediaRecorder object mediaRecorder.current points at (identified by
an allocation counter, so distinct objects created by the constructor are
distinct values), whether that recorder has been started, and the
audioChunks ref. -/
structure RecorderState where
  audioCtxReady : Bool
  recorderId : Option Nat
  recorderActive : Bool
  audioChunks : List (List Nat)
  nextId : Nat
deriving DecidableEq

/-- Model of the audio-context setup function of the source (named
initializeAudioContext there): create the context when absent; the resume
branch changes no modelled state. -/
def initAudioContext (s : RecorderState) : RecorderState :=
  if s.audioCtxReady then s else { s with audioCtxReady := true }

/-- Model of startRecording: ensure the audio context, allocate a fresh
MediaRecorder over a fresh stream destination, store it in
mediaRecorder.current, install its handlers and start it. The source has
no guard on the current session state: the chunk list is not cleared and
a recorder already stored is silently replaced. -/
def startRecording (s : RecorderState) : RecorderState :=
  let s1 := initAudioContext s
  { s1 with recorderId := some s1.nextId, recorderActive := true, nextId := s1.nextId + 1 }

/-- Model of stopRecording: stop the current recorder when one exists. -/
def stopRecording (s : RecorderState) : RecorderState :=
  if s.recorderId.isSome then { s with recorderActive := false } else s

/-- Model of the ondataavailable handler: append the delivered chunk. -/
def onDataAvailable (s : RecorderState) (chunk : List Nat) : RecorderState :=
  { s with audioChunks := s.audioChunks ++ [chunk] }

/-- Model of the mediaRecorder.onstop handler: concatenate the collected
chunks into the raw buffer (the Blob), clear the chunk list, and convert
the raw buffer to MP3; returns the new state, the raw buffer and the
conversion result handed to saveAs. -/
def mediaRecorderOnStop (enc : Mp3EncoderModel α) (s : RecorderState) :
    RecorderState × List Nat × Except EncError (List (List Nat)) :=
  let rawBuffer := s.audioChunks.flatten
  ({ s with audioChunks := [] }, rawBuffer, convertToMp3 enc rawBuffer)

/-- A concrete instance of the abstract encoder model, used to evaluate
the pipeline on concrete inputs: stateless, no bytes per block, one byte
at flush. -/
def stubEnc : Mp3EncoderModel Unit where
  init := ()
  encodeBuffer := fun st _ => (st, [])
  flush := fun _ => [255]

/-- A 44-byte WAV buffer whose header declares two channels and 16-bit
samples, with an empty data section. -/
def stereoWav : List Nat :=
  [82, 73, 70, 70, 36, 0, 0, 0, 87, 65, 86, 69,
   102, 109, 116, 32, 16, 0, 0, 0, 1, 0, 2, 0,
   68, 172, 0, 0, 16, 177, 2, 0, 4, 0, 16, 0,
   100, 97, 116, 97, 0, 0, 0, 0]

instance {ε α : Type} [DecidableEq ε] [DecidableEq α] : DecidableEq (Except ε α) :=
  fun a b =>
    match a, b with
    | .error e1, .error e2 =>
      if h : e1 = e2 then .isTrue (by rw [h]) else .isFalse (by simp [h])
    | .error _, .ok _ => .isFalse (by simp)
    | .ok _, .error _ => .isFalse (by simp)
    | .ok a1, .ok a2 =>
      if h : a1 = a2 then .isTrue (by rw [h]) else .isFalse (by simp [h])

lemma getNoteFromKeyCode_eq_none {c : Int}
    (h1 : c ≠ 65) (h2 : c ≠ 83) (h3 : c ≠ 68) (h4 : c ≠ 70) (h5 : c ≠ 71)
    (h6 : c ≠ 72) (h7 : c ≠ 74) (h8 : c ≠ 75) (h9 : c ≠ 76) (h10 : c ≠ 186)
    (h11 : c ≠ 222) : getNoteFromKeyCode c = none := by
  unfold getNoteFromKeyCode
  rw [if_neg h1, if_neg h2, if_neg h3, if_neg h4, if_neg h5, if_neg h6,
    if_neg h7, if_neg h8, if_neg h9, if_neg h10, if_neg h11]

lemma getNoteFromKeyCode_mem_pairs {c : Int} {n : NoteSymbol}
    (h : getNoteFromKeyCode c = some n) : (c, n) ∈ keyNotePairs := by
  by_cases h1 : c = 65
  · subst h1; rw [show getNoteFromKeyCode 65 = some NoteSymbol.C by decide] at h
    injection h with h; subst h; decide
  by_cases h2 : c = 83
  · subst h2; rw [show getNoteFromKeyCode 83 = some NoteSymbol.D by decide] at h
    injection h with h; subst h; decide
  by_cases h3 : c = 68
  · subst h3; rw [show getNoteFromKeyCode 68 = some NoteSymbol.E by decide] at h
    injection h with h; subst h; decide
  by_cases h4 : c = 70
  · subst h4; rw [show getNoteFromKeyCode 70 = some NoteSymbol.F by decide] at h
    injection h with h; subst h; decide
  by_cases h5 : c = 71
  · subst h5; rw [show getNoteFromKeyCode 71 = some NoteSymbol.G by decide] at h
    injection h with h; subst h; decide
  by_cases h6 : c = 72
  · subst h6; rw [show getNoteFromKeyCode 72 = some NoteSymbol.A by decide] at h
    injection h with h; subst h; decide
  by_cases h7 : c = 74
  · subst h7; rw [show getNoteFromKeyCode 74 = some NoteSymbol.B by decide] at h
    injection h with h; subst h; decide
  by_cases h8 : c = 75
  · subst h8; rw [show getNoteFromKeyCode 75 = some NoteSymbol.Cs by decide] at h
    injection h with h; subst h; decide
  by_cases h9 : c = 76
  · subst h9; rw [show getNoteFromKeyCode 76 = some NoteSymbol.Ds by decide] at h
    injection h with h; subst h; decide
  by_cases h10 : c = 186
  · subst h10; rw [show getNoteFromKeyCode 186 = some NoteSymbol.Fs by decide] at h
    injection h with h; subst h; decide
  by_cases h11 : c = 222
  · subst h11; rw [show getNoteFromKeyCode 222 = some NoteSymbol.Gs by decide] at h
    injection h with h; subst h; decide
  rw [getNoteFromKeyCode_eq_none h1 h2 h3 h4 h5 h6 h7 h8 h9 h10 h11] at h
  exact Option.noConfusion h

/-- C1: a keydown for a note that is already in the held-note set is a
no-op (no attack, no state change); a fresh keydown adds the note and
emits exactly one attack, and an immediately repeated keydown for the
same code emits nothing, so the pair of calls emits exactly one attack. -/
theorem keydown_dedup :
    (∀ (s : SynthState) (kc : Int) (n : NoteSymbol),
      getNoteFromKeyCode kc = some n → n ∈ s.activeNotes →
      handleKeyDown s kc = (s, [])) ∧
    (∀ (s : SynthState) (kc : Int) (n : NoteSymbol),
      getNoteFromKeyCode kc = some n → s.synthReady = true → n ∉ s.activeNotes →
      (handleKeyDown s kc).2 ++ (handleKeyDown (handleKeyDown s kc).1 kc).2
        = [Effect.attack (getNoteWithOctave n s.octave)]) := by
  constructor
  · intro s kc n h hmem
    simp [handleKeyDown, h, hmem]
  · intro s kc n h hready hmem
    simp [handleKeyDown, h, hready, hmem]

theorem keydown_dedup_witness :
    (handleKeyDown ⟨4, true, []⟩ 65).2
        ++ (handleKeyDown (handleKeyDown ⟨4, true, []⟩ 65).1 65).2
      = [Effect.attack (getNoteWithOctave NoteSymbol.C 4)] ∧
    handleKeyDown ⟨4, true, [NoteSymbol.C]⟩ 65 = (⟨4, true, [NoteSymbol.C]⟩, []) :=
  ⟨keydown_dedup.2 ⟨4, true, []⟩ 65 NoteSymbol.C (by decide) (by decide) (by decide),
   keydown_dedup.1 ⟨4, true, [NoteSymbol.C]⟩ 65 NoteSymbol.C (by decide) (by decide)⟩

/-- C8: a keyup for a mapped note that is not in the held-note set is a
no-op: it emits no release effect and leaves the state unchanged. -/
theorem keyup_absent_noop (s : SynthState) (kc : Int) (n : NoteSymbol)
    (h : getNoteFromKeyCode kc = some n) (hmem : n ∉ s.activeNotes) :
    handleKeyUp s kc = (s, []) := by
  simp [handleKeyUp, h, hmem]

theorem keyup_absent_noop_witness :
    handleKeyUp ⟨4, true, [NoteSymbol.D]⟩ 65 = (⟨4, true, [NoteSymbol.D]⟩, []) :=
  keyup_absent_noop ⟨4, true, [NoteSymbol.D]⟩ 65 NoteSymbol.C (by decide) (by decide)

/-- C7: shifting the octave up and then down restores the original octave,
never touches the held-note set, and every pitch resolved after the two
shifts equals the pitch resolved before either shift. -/
theorem octave_up_down_roundtrip (s : SynthState) (n : NoteSymbol) :
    (handleOctaveChange (handleOctaveChange s "up") "down").octave = s.octave ∧
    (handleOctaveChange s "up").activeNotes = s.activeNotes ∧
    (handleOctaveChange (handleOctaveChange s "up") "down").activeNotes = s.activeNotes ∧
    getNoteWithOctave n (handleOctaveChange (handleOctaveChange s "up") "down").octave
      = getNoteWithOctave n s.octave := by
  simp [handleOctaveChange, getNoteWithOctave]

/-- C9: getNoteFromKeyCode is a pure total function on integer key codes;
every code outside the 11-entry table resolves to none, every code in the
table resolves to a note, the table has 11 pairwise distinct codes, and
no two distinct codes resolve to the same note. -/
theorem keycode_map_total_injective :
    (∀ c : Int, c ∉ mappedKeyCodes → getNoteFromKeyCode c = none) ∧
    (∀ c : Int, c ∈ mappedKeyCodes → (getNoteFromKeyCode c).isSome = true) ∧
    mappedKeyCodes.length = 11 ∧ mappedKeyCodes.Nodup ∧
    (∀ (c₁ c₂ : Int) (n₁ n₂ : NoteSymbol),
      getNoteFromKeyCode c₁ = some n₁ → getNoteFromKeyCode c₂ = some n₂ →
      n₁ = n₂ → c₁ = c₂) := by
  refine ⟨?_, ?_, by decide, by decide, ?_⟩
  · intro c hc
    exact getNoteFromKeyCode_eq_none
      (fun e => hc (by rw [e]; decide)) (fun e => hc (by rw [e]; decide))
      (fun e => hc (by rw [e]; decide)) (fun e => hc (by rw [e]; decide))
      (fun e => hc (by rw [e]; decide)) (fun e => hc (by rw [e]; decide))
      (fun e => hc (by rw [e]; decide)) (fun e => hc (by rw [e]; decide))
      (fun e => hc (by rw [e]; decide)) (fun e => hc (by rw [e]; decide))
      (fun e => hc (by rw [e]; decide))
  · intro c hc
    simp only [mappedKeyCodes, List.mem_cons, List.not_mem_nil, or_false] at hc
    rcases hc with rfl | rfl | rfl | rfl | rfl | rfl | rfl | rfl | rfl | rfl | rfl <;>
      decide
  · intro c₁ c₂ n₁ n₂ h₁ h₂ hn
    have p₁ := getNoteFromKeyCode_mem_pairs h₁
    have p₂ := getNoteFromKeyCode_mem_pairs h₂
    have inj : ∀ p ∈ keyNotePairs, ∀ q ∈ keyNotePairs, p.2 = q.2 → p.1 = q.1 := by
      decide
    exact inj _ p₁ _ p₂ (by simpa using hn)

theorem keycode_map_total_injective_witness :
    getNoteFromKeyCode 64 = none ∧ (getNoteFromKeyCode 186).isSome = true ∧
    (65 : Int) = 65 :=
  ⟨keycode_map_total_injective.1 64 (by decide),
   keycode_map_total_injective.2.1 186 (by decide),
   keycode_map_total_injective.2.2.2.2 65 65 NoteSymbol.C NoteSymbol.C
     (by decide) (by decide) rfl⟩

/-- C6: the on-screen key-button handlers never read or mutate the
held-note set: each of the four handlers leaves the state unchanged for
every state, and whenever synth.current is non-null, mouse-down and
touch-start emit exactly one attack and mouse-up and touch-end emit
exactly one release, whether or not the note is currently held. -/
theorem button_handlers_bypass_set (s : SynthState) (n : NoteSymbol) :
    ((buttonMouseDown s n).1 = s ∧ (buttonMouseUp s n).1 = s ∧
     (buttonTouchStart s n).1 = s ∧ (buttonTouchEnd s n).1 = s) ∧
    (s.synthReady = true →
      buttonMouseDown s n = (s, [Effect.attack (getNoteWithOctave n s.octave)]) ∧
      buttonTouchStart s n = (s, [Effect.attack (getNoteWithOctave n s.octave)]) ∧
      buttonMouseUp s n = (s, [Effect.release (getNoteWithOctave n s.octave)]) ∧
      buttonTouchEnd s n = (s, [Effect.release (getNoteWithOctave n s.octave)])) := by
  constructor
  · refine ⟨?_, ?_, ?_, ?_⟩ <;>
      simp [buttonMouseDown, buttonMouseUp, buttonTouchStart, buttonTouchEnd] <;>
      split <;> simp
  · intro hready
    simp [buttonMouseDown, buttonMouseUp, buttonTouchStart, buttonTouchEnd, hready]

theorem button_handlers_bypass_set_witness :
    buttonMouseDown ⟨4, true, [NoteSymbol.C]⟩ NoteSymbol.C
      = (⟨4, true, [NoteSymbol.C]⟩,
         [Effect.attack (getNoteWithOctave NoteSymbol.C 4)]) :=
  ((button_handlers_bypass_set ⟨4, true, [NoteSymbol.C]⟩ NoteSymbol.C).2 rfl).1

/-- C10: when the octave shifts between a press and the matching release,
the release is built from the octave current at release time: the attack
sounds at the old octave, the release at the new one, the two pitches
differ, and no release for the attacked pitch is ever emitted. -/
theorem release_uses_current_octave (s : SynthState) (kc : Int) (n : NoteSymbol)
    (h : getNoteFromKeyCode kc = some n) (hready : s.synthReady = true)
    (hmem : n ∉ s.activeNotes) :
    (handleKeyDown s kc).2 = [Effect.attack ⟨n, s.octave⟩] ∧
    (handleKeyUp (handleOctaveChange (handleKeyDown s kc).1 "up") kc).2
      = [Effect.release ⟨n, s.octave + 1⟩] ∧
    (⟨n, s.octave⟩ : Pitch) ≠ ⟨n, s.octave + 1⟩ ∧
    Effect.release ⟨n, s.octave⟩ ∉
      (handleKeyDown s kc).2 ++
        (handleKeyUp (handleOctaveChange (handleKeyDown s kc).1 "up") kc).2 := by
  refine ⟨?_, ?_, ?_, ?_⟩ <;>
    simp [handleKeyDown, handleKeyUp, handleOctaveChange, getNoteWithOctave,
      h, hready, hmem, Pitch.mk.injEq]

theorem release_uses_current_octave_witness :
    (handleKeyDown ⟨4, true, []⟩ 65).2 = [Effect.attack ⟨NoteSymbol.C, 4⟩] ∧
    (handleKeyUp (handleOctaveChange (handleKeyDown ⟨4, true, []⟩ 65).1 "up") 65).2
      = [Effect.release ⟨NoteSymbol.C, 5⟩] ∧
    (⟨NoteSymbol.C, 4⟩ : Pitch) ≠ ⟨NoteSymbol.C, 5⟩ ∧
    Effect.release ⟨NoteSymbol.C, 4⟩ ∉
      (handleKeyDown ⟨4, true, []⟩ 65).2 ++
        (handleKeyUp (handleOctaveChange (handleKeyDown ⟨4, true, []⟩ 65).1 "up") 65).2 := by
  have h := release_uses_current_octave ⟨4, true, []⟩ 65 NoteSymbol.C
    (by decide) (by decide) (by decide)
  simpa using h

lemma chunkLens_cons {n : Nat} (h : n ≠ 0) :
    chunkLens n = min 1152 n :: chunkLens (n - 1152) := by
  unfold chunkLens
  rcases lt_or_ge n 1152 with hlt | hge
  · have hd : n / 1152 = 0 := Nat.div_eq_of_lt hlt
    have hm : n % 1152 = n := Nat.mod_eq_of_lt hlt
    have hz : n - 1152 = 0 := by omega
    rw [hd, hm, hz]
    have hmin : min 1152 n = n := by omega
    simp [h, hmin]
  · have hd : n / 1152 = (n - 1152) / 1152 + 1 := by
      omega
    have hm : n % 1152 = (n - 1152) % 1152 := by
      omega
    have hmin : min 1152 n = 1152 := by omega
    rw [hd, hm, hmin, List.replicate_succ, List.cons_append]

lemma chunkSamplesGo_map_length :
    ∀ (fuel : Nat) (l : List Int), l.length ≤ fuel →
      (chunkSamplesGo fuel l).map List.length = chunkLens l.length := by
  intro fuel
  induction fuel with
  | zero =>
    intro l hl
    have : l = [] := List.eq_nil_of_length_eq_zero (by omega)
    subst this
    simp [chunkSamplesGo, chunkLens]
  | succ fuel ih =>
    intro l hl
    cases l with
    | nil => simp [chunkSamplesGo, chunkLens]
    | cons x xs =>
      have hne : (x :: xs).length ≠ 0 := by simp
      rw [show chunkSamplesGo (fuel + 1) (x :: xs)
            = (x :: xs).take 1152 :: chunkSamplesGo fuel ((x :: xs).drop 1152) from rfl]
      have hfuel : ((x :: xs).drop 1152).length ≤ fuel := by
        rw [List.length_drop]
        simp only [List.length_cons] at hl ⊢
        omega
      rw [List.map_cons, List.length_take, ih ((x :: xs).drop 1152) hfuel,
        List.length_drop, chunkLens_cons hne]

lemma chunkSamples_map_length (l : List Int) :
    (chunkSamples l).map List.length = chunkLens l.length :=
  chunkSamplesGo_map_length l.length l le_rfl

lemma chunkLens_dropLast {n k : Nat} (hk : k ∈ (chunkLens n).dropLast) : k = 1152 := by
  unfold chunkLens at hk
  by_cases h : n % 1152 = 0
  · rw [if_pos h, List.append_nil] at hk
    exact List.eq_of_mem_replicate ((List.dropLast_sublist _).subset hk)
  · rw [if_neg h, List.dropLast_concat] at hk
    exact List.eq_of_mem_replicate hk

lemma chunkLens_mem {n k : Nat} (hk : k ∈ chunkLens n) : 0 < k ∧ k ≤ 1152 := by
  unfold chunkLens at hk
  rcases List.mem_append.mp hk with hrep | hif
  · have := List.eq_of_mem_replicate hrep
    omega
  · by_cases h : n % 1152 = 0
    · rw [if_pos h] at hif
      exact absurd hif (List.not_mem_nil k)
    · rw [if_neg h, List.mem_singleton] at hif
      have : n % 1152 < 1152 := Nat.mod_lt n (by omega)
      omega

lemma chunkLens_getLast {n : Nat} (h : n % 1152 ≠ 0) :
    (chunkLens n).getLast? = some (n % 1152) := by
  unfold chunkLens
  rw [if_neg h, List.getLast?_concat]

/-- C2 counterexample: on the 44100-sample input of the round-trip
scenario of the spec (one second of mono audio at 44100 Hz), the block
loop itself feeds the encoder a final chunk of 324 samples, fewer than
1152, so partial blocks are consumed by the block loop and not only by
the flush call. -/
theorem block_loop_short_chunk_counterexample :
    324 ∈ (chunkSamples (List.replicate 44100 (0 : Int))).map List.length ∧
    324 < 1152 := by
  rw [chunkSamples_map_length, List.length_replicate]
  decide

/-- C2 (amended): the block loop feeds the encoder the successive takes of
up to 1152 samples: every chunk before the last has exactly 1152 samples,
every chunk has between 1 and 1152 samples, and when the sample count n is
not a multiple of 1152 the final loop chunk (not the flush) carries the
n mod 1152 leftover samples; the flush drains only internal encoder
state. For every encoder whose flush output is non-empty, the frame
sequence returned for any input, in particular the one-second silence
input, is non-empty after flush. -/
theorem block_loop_amended :
    (∀ l : List Int, (chunkSamples l).map List.length = chunkLens l.length) ∧
    (∀ n : Nat, ∀ k ∈ (chunkLens n).dropLast, k = 1152) ∧
    (∀ n : Nat, ∀ k ∈ chunkLens n, 0 < k ∧ k ≤ 1152) ∧
    (∀ n : Nat, n % 1152 ≠ 0 → (chunkLens n).getLast? = some (n % 1152)) ∧
    (∀ (α : Type) (enc : Mp3EncoderModel α) (samples : List Int),
      (∀ st : α, 0 < (enc.flush st).length) →
      0 < (convertToMp3Core enc samples).length) := by
  refine ⟨chunkSamples_map_length, fun n k hk => chunkLens_dropLast hk,
    fun n k hk => chunkLens_mem hk, fun n h => chunkLens_getLast h, ?_⟩
  intro α enc samples hflush
  unfold convertToMp3Core
  have h := hflush (encodeLoop enc (chunkSamples samples) enc.init []).1
  rw [if_pos h, List.length_append]
  simp

theorem block_loop_amended_witness :
    0 < (convertToMp3Core stubEnc (List.replicate 44100 (0 : Int))).length :=
  block_loop_amended.2.2.2.2 Unit stubEnc (List.replicate 44100 (0 : Int))
    (by intro st; cases st; decide)

/-- C3 counterexample: from a state that is already capturing (a started
recorder stored as object 0, one chunk collected), startRecording is not
a no-op: the resulting state differs and the stored recorder is replaced
by a newly allocated object. -/
theorem start_while_capturing_counterexample :
    startRecording ⟨true, some 0, true, [[1]], 1⟩ ≠ ⟨true, some 0, true, [[1]], 1⟩ ∧
    (startRecording ⟨true, some 0, true, [[1]], 1⟩).recorderId ≠ some 0 := by
  decide

/-- C3 (amended): startRecording has no already-capturing guard: from
every state it stores a freshly allocated recorder (replacing whatever
recorder was stored), marks it started, and leaves the chunk sequence
unchanged rather than clearing it. -/
theorem start_while_capturing_amended (s : RecorderState) :
    (startRecording s).recorderId = some s.nextId ∧
    (startRecording s).recorderActive = true ∧
    (startRecording s).audioChunks = s.audioChunks ∧
    (startRecording s).nextId = s.nextId + 1 := by
  unfold startRecording initAudioContext
  split <;> simp

/-- C4 counterexample: a buffer whose embedded header declares two
channels is not rejected: convertToMp3 parses it and returns an encoded
result, not a FormatError. -/
theorem format_rejection_counterexample :
    readHeader stereoWav = .ok ⟨2, 44100, 16, 44, 0⟩ ∧
    convertToMp3 stubEnc stereoWav = .ok [[255]] := by
  constructor
  · decide
  · decide

/-- C4 (amended): convertToMp3 performs no channel-count or bit-depth
validation: whenever the header parses, it returns an encoded result for
every encoder, whatever channel count and bit depth the header declares;
no FormatError is ever produced. -/
theorem format_rejection_amended (α : Type) (enc : Mp3EncoderModel α)
    (buf : List Nat) (wav : WavHeader) (h : readHeader buf = .ok wav) :
    convertToMp3 enc buf
      = .ok (convertToMp3Core enc
          (bytesToInt16 ((buf.drop wav.dataOffset).take (2 * (wav.dataLen / 2))))) := by
  unfold convertToMp3
  rw [h]

theorem format_rejection_amended_witness :
    convertToMp3 stubEnc stereoWav
      = .ok (convertToMp3Core stubEnc
          (bytesToInt16 ((stereoWav.drop 44).take (2 * (0 / 2))))) :=
  format_rejection_amended Unit stubEnc stereoWav ⟨2, 44100, 16, 44, 0⟩ (by decide)

/-- C5 counterexample: stopping with zero captured chunks hands the empty
raw buffer to the encoder, which fails with a DecodeError on the
unparseable empty header; the result is not an empty frame sequence. -/
theorem stop_empty_counterexample :
    (mediaRecorderOnStop stubEnc ⟨true, some 0, false, [], 1⟩).2
      = ([], .error .decodeError) ∧
    (mediaRecorderOnStop stubEnc ⟨true, some 0, false, [], 1⟩).2.2
      ≠ .ok [] := by
  decide

/-- C5 (amended): with zero captured chunks the onstop handler builds the
empty raw buffer and clears the (already empty) chunk list, but the
conversion then fails with a DecodeError while parsing the header of the
empty buffer; no empty frame sequence is returned. -/
theorem stop_empty_amended (α : Type) (enc : Mp3EncoderModel α)
    (s : RecorderState) (h : s.audioChunks = []) :
    mediaRecorderOnStop enc s
      = ({ s with audioChunks := [] }, [], .error .decodeError) := by
  unfold mediaRecorderOnStop
  rw [h]
  simp [convertToMp3, readHeader]

theorem stop_empty_amended_witness :
    mediaRecorderOnStop stubEnc ⟨true, some 0, true, [], 1⟩
      = (⟨true, some 0, true, [], 1⟩, [], .error .decodeError) :=
  stop_empty_amended Unit stubEnc ⟨true, some 0, true, [], 1⟩ rfl
